import Mathlib

/-!
Shallow embedding of the PDF toolkit server (src/server/index.mjs), centred on
the redaction pipeline of the POST /api/redact-pdf handler and the GET
/api/health handler.  Numbers of the JavaScript runtime are modelled as
rationals; a possibly non-finite number (NaN or an infinity) is modelled as
Option ℚ with none for the non-finite case.  Thrown exceptions are modelled
with Except.
-/

namespace PdfToolkit

/-- A JPEG image produced by the rasterizer, with its pixel dimensions. -/
structure Jpeg where
  w : Nat
  h : Nat
  deriving DecidableEq, Repr

/-- An RGB color as passed to the drawing call. -/
structure Color where
  r : ℚ
  g : ℚ
  b : ℚ
  deriving DecidableEq, Repr

/-- The rgb helper of pdf-lib. -/
def rgb (r g b : ℚ) : Color := ⟨r, g, b⟩

/-- One drawing operation recorded in a page content stream: a text show
operation, a vector path, a filled rectangle, or a placed image. -/
inductive ContentItem where
  | text (s : String)
  | path (d : String)
  | rect (x y w h : ℚ) (c : Color)
  | image (img : Jpeg) (x y w h : ℚ)
  deriving DecidableEq, Repr

/-- A page of a pdf-lib document: its size and its content stream. -/
structure Page where
  width : ℚ
  height : ℚ
  content : List ContentItem
  deriving DecidableEq, Repr

/-- An in-memory pdf-lib document. -/
structure PDFDoc where
  pages : List Page
  deriving DecidableEq, Repr

/-- A redaction entry after the Number() coercion of its five fields performed
by parseRedactions (src/server/index.mjs lines 101-108); none models a
non-finite coercion result (NaN or an infinity). -/
structure JEntry where
  page : Option ℚ
  x : Option ℚ
  y : Option ℚ
  width : Option ℚ
  height : Option ℚ
  deriving DecidableEq, Repr

/-- The filter predicate of parseRedactions (src/server/index.mjs lines
109-118): all five fields finite, page at least 1, x and y at least 0, width
and height above 0. -/
def validEntry (e : JEntry) : Bool :=
  e.page.isSome && e.x.isSome && e.y.isSome && e.width.isSome && e.height.isSome
    && decide (1 ≤ e.page.getD 0) && decide (0 ≤ e.x.getD 0) && decide (0 ≤ e.y.getD 0)
    && decide (0 < e.width.getD 0) && decide (0 < e.height.getD 0)

/-- A kept redaction rule: the five numeric fields of an entry that passed the
filter. -/
structure Rule where
  page : ℚ
  x : ℚ
  y : ℚ
  width : ℚ
  height : ℚ
  deriving DecidableEq, Repr

/-- The numeric fields of a kept entry, as a Rule. -/
def ruleOf (e : JEntry) : Rule :=
  ⟨e.page.getD 0, e.x.getD 0, e.y.getD 0, e.width.getD 0, e.height.getD 0⟩

/-- parseRedactions (src/server/index.mjs lines 91-119).  The argument none
models a redactions field that fails JSON parsing or is not an array, which
the code turns into the empty list. -/
def parseRedactions (raw : Option (List JEntry)) : List Rule :=
  ((raw.getD []).filter validEntry).map ruleOf

/-- Validity of a redaction entry as the specification data model states it:
page an integer at least 1, x and y in the closed unit interval, width and
height in the half-open unit interval.  Stated from the spec wording, for
comparison with validEntry. -/
def specValidEntry (e : JEntry) : Bool :=
  match e.page, e.x, e.y, e.width, e.height with
  | some p, some x, some y, some w, some h =>
    decide (p.den = 1) && decide (1 ≤ p) && decide (0 ≤ x) && decide (x ≤ 1)
      && decide (0 ≤ y) && decide (y ≤ 1) && decide (0 < w) && decide (w ≤ 1)
      && decide (0 < h) && decide (h ≤ 1)
  | _, _, _, _, _ => false

/-- The rectangle computation and drawRectangle call of the redact handler
(src/server/index.mjs lines 143-157), applied to one page. -/
def drawCover (entry : Rule) (page : Page) : Page :=
  let width := page.width
  let height := page.height
  let rectX := entry.x * width
  let rectWidth := min (width - rectX) (entry.width * width)
  let rectHeight := min height (entry.height * height)
  let topOriginY := entry.y * height
  let rectY := max 0 (height - topOriginY - rectHeight)
  { page with content := page.content
      ++ [ContentItem.rect rectX rectY (max 1 rectWidth) (max 1 rectHeight) (rgb 0 0 0)] }

/-- Replace the page at a given index by the image of f, leaving the list
unchanged when the index is out of range. -/
def modifyPage (f : Page → Page) : List Page → Nat → List Page
  | [], _ => []
  | p :: ps, 0 => f p :: ps
  | p :: ps, n + 1 => p :: modifyPage f ps n

/-- Processing of one redaction entry (src/server/index.mjs lines 139-158):
skip when the zero-based index falls outside the page range; otherwise draw
the cover rectangle on the resolved page.  A non-integer index inside the
range makes pdf-lib getPage return no page and the drawing call throw, which
is modelled as an error. -/
def drawRule (doc : PDFDoc) (entry : Rule) : Except String PDFDoc :=
  let index : ℚ := entry.page - 1
  if index < 0 ∨ (doc.pages.length : ℚ) ≤ index then Except.ok doc
  else if index.den = 1 then
    Except.ok ⟨modifyPage (drawCover entry) doc.pages index.num.toNat⟩
  else Except.error ("page index is not an integer")

/-- The forEach loop over the kept rules (src/server/index.mjs lines
139-158): a thrown exception aborts the loop. -/
def applyRedactions (doc : PDFDoc) : List Rule → Except String PDFDoc
  | [] => Except.ok doc
  | r :: rest =>
    match drawRule doc r with
    | Except.error e => Except.error e
    | Except.ok d => applyRedactions d rest

/-- Remove a leading occurrence of the first list from the second, returning
the remainder, or none when the second list does not start with the first. -/
def dropStart : List Char → List Char → Option (List Char)
  | [], cs => some cs
  | _ :: _, [] => none
  | p :: ps, c :: cs => if c = p then dropStart ps cs else none

/-- The case-insensitive filename test of src/server/index.mjs line 166:
redacted-page-, then one or more digits, then .jpg, spanning the whole name. -/
def matchesPattern (s : String) : Bool :=
  let cs := s.data.map Char.toLower
  match dropStart ("redacted-page-".data) cs with
  | none => false
  | some rest =>
    !(rest.takeWhile Char.isDigit).isEmpty && rest.dropWhile Char.isDigit == ".jpg".data

/-- Decimal value of a list of digit characters. -/
def digitsToNat (ds : List Char) : Nat :=
  ds.foldl (fun acc c => 10 * acc + (c.toNat - 48)) 0

/-- The first maximal run of digit characters in a list, or the empty list
when there is none. -/
def firstDigitRun : List Char → List Char
  | [] => []
  | c :: cs => if c.isDigit then c :: cs.takeWhile Char.isDigit else firstDigitRun cs

/-- The numeric sort key of src/server/index.mjs lines 168-169: the value of
the first digit run of the name, or 0 when the name has no digits. -/
def pageNumOf (s : String) : Nat := digitsToNat (firstDigitRun s.data)

/-- The order induced by the comparator of src/server/index.mjs lines
167-171, which subtracts the numeric keys of two names. -/
def numLe (a b : String) : Prop := pageNumOf a ≤ pageNumOf b

instance : DecidableRel numLe := fun a b => Nat.decLe (pageNumOf a) (pageNumOf b)

instance : IsTotal String numLe := ⟨fun a b => Nat.le_total (pageNumOf a) (pageNumOf b)⟩

instance : IsTrans String numLe := ⟨fun _ _ _ hab hbc => Nat.le_trans hab hbc⟩

/-- The enumeration of rasterizer output files (src/server/index.mjs lines
165-171): keep the names matching the pattern and sort them by the embedded
page number. -/
def generatedOf (names : List String) : List String :=
  List.insertionSort numLe (names.filter matchesPattern)

/-- The output assembly loop (src/server/index.mjs lines 178-185): one fresh
page per image, sized to the image pixel dimensions, with the image drawn at
the origin filling the page. -/
def reassemble (images : List Jpeg) : PDFDoc :=
  ⟨images.map fun em => ⟨(em.w : ℚ), (em.h : ℚ), [ContentItem.image em 0 0 (em.w : ℚ) (em.h : ℚ)]⟩⟩

/-- Text extraction over one page: the concatenation of its text show
operations, in stream order. -/
def pageText (p : Page) : String :=
  p.content.foldl (fun acc c => match c with | ContentItem.text s => acc ++ s | _ => acc) ""

/-- Whether a content item is a placed image. -/
def isImageItem : ContentItem → Bool
  | ContentItem.image _ _ _ _ _ => true
  | _ => false

/-- An HTTP response of the redact handler: a 200 carrying the output
document, or an error status with a JSON message. -/
inductive Response where
  | ok (doc : PDFDoc)
  | err (status : Nat) (msg : String)
  deriving DecidableEq, Repr

/-- The HTTP status of a response. -/
def statusOf : Response → Nat
  | Response.ok _ => 200
  | Response.err s _ => s

/-- The observable outcome of one run of the redact handler: the response
sent, whether mkdtemp ran, and whether the finally rm ran. -/
structure Outcome where
  response : Response
  tempCreated : Bool
  tempCleaned : Bool
  deriving DecidableEq, Repr

/-- The try block of the redact handler (src/server/index.mjs lines 135-190).
Except.error models a thrown exception to be caught by the catch block;
Except.ok carries the response the block itself sends.  loadResult is the
result of PDFDocument.load on the uploaded bytes (none when loading throws);
rasterNames is the directory listing after the pdftoppm run (none when
pdftoppm exits nonzero); readImg gives the decoded image for each produced
file name. -/
def handlerBody (loadResult : Option PDFDoc) (rules : List Rule)
    (rasterNames : Option (List String)) (readImg : String → Jpeg) : Except String Response :=
  match loadResult with
  | none => Except.error ("failed to load PDF")
  | some source =>
    match applyRedactions source rules with
    | Except.error e => Except.error e
    | Except.ok _staged =>
      match rasterNames with
      | none => Except.error ("pdftoppm failed")
      | some names =>
        let generated := generatedOf names
        if generated.isEmpty then
          Except.ok (Response.err 500 ("No rasterized pages were generated for redaction output."))
        else
          Except.ok (Response.ok (reassemble (generated.map readImg)))

/-- The POST /api/redact-pdf handler (src/server/index.mjs lines 121-196).
pdftoppmFound is whether resolvePdftoppmBinary found an executable;
filePresent is whether a multipart file field arrived.  The temporary
directory is created only after the 501 and 400 guards pass, and the finally
block removes it on success, on a handled error and on a thrown exception
alike. -/
def redactPdf (pdftoppmFound : Bool) (filePresent : Bool) (loadResult : Option PDFDoc)
    (raw : Option (List JEntry)) (rasterNames : Option (List String))
    (readImg : String → Jpeg) : Outcome :=
  if !pdftoppmFound then
    ⟨Response.err 501 ("pdftoppm binary not found. Install poppler-utils or set PDFTOPPM_PATH."),
      false, false⟩
  else
    let redactions := parseRedactions raw
    if !filePresent || redactions.length == 0 then
      ⟨Response.err 400 ("file and redactions are required"), false, false⟩
    else
      match handlerBody loadResult redactions rasterNames readImg with
      | Except.ok resp => ⟨resp, true, true⟩
      | Except.error e => ⟨Response.err 500 e, true, true⟩

/-- The reported binary availability of the health endpoint. -/
structure Binaries where
  qpdf : Bool
  libreoffice : Bool
  pdftoppm : Bool
  deriving DecidableEq, Repr

/-- The JSON body of the health endpoint. -/
structure HealthResponse where
  ok : Bool
  binaries : Binaries
  deriving DecidableEq, Repr

/-- The GET /api/health handler (src/server/index.mjs lines 77-89): the three
resolver results come in as optional paths; ok is the literal true. -/
def healthHandler (qpdf soffice pdftoppm : Option String) : HealthResponse :=
  ⟨true, ⟨qpdf.isSome, soffice.isSome, pdftoppm.isSome⟩⟩

end PdfToolkit

namespace PdfToolkit

theorem modifyPage_length (f : Page → Page) : ∀ (ps : List Page) (n : Nat),
    (modifyPage f ps n).length = ps.length
  | [], _ => rfl
  | _ :: _, 0 => rfl
  | _ :: ps, n + 1 => congrArg Nat.succ (modifyPage_length f ps n)

theorem drawRule_length {doc d : PDFDoc} {r : Rule} (h : drawRule doc r = Except.ok d) :
    d.pages.length = doc.pages.length := by
  simp only [drawRule] at h
  split at h
  · cases h; rfl
  · split at h
    · cases h; exact modifyPage_length _ _ _
    · cases h

theorem applyRedactions_length : ∀ {rs : List Rule} {doc d : PDFDoc},
    applyRedactions doc rs = Except.ok d → d.pages.length = doc.pages.length := by
  intro rs
  induction rs with
  | nil =>
    intro doc d h
    cases h
    rfl
  | cons r rest ih =>
    intro doc d h
    unfold applyRedactions at h
    cases hd : drawRule doc r with
    | error e => rw [hd] at h; cases h
    | ok mid =>
      rw [hd] at h
      exact (ih h).trans (drawRule_length hd)

theorem drawRule_out_of_range {doc : PDFDoc} {r : Rule} (hint : r.page.den = 1)
    (hout : r.page < 1 ∨ (doc.pages.length : ℚ) < r.page) :
    drawRule doc r = Except.ok doc := by
  have hcond : (r.page - 1 : ℚ) < 0 ∨ (doc.pages.length : ℚ) ≤ r.page - 1 := by
    rcases hout with h | h
    · left; linarith
    · right
      have hq : (r.page.num : ℚ) = r.page := Rat.coe_int_num_of_den_eq_one hint
      have h2 : (doc.pages.length : ℤ) < r.page.num := by
        rw [← hq] at h
        exact_mod_cast h
      have h3 : ((doc.pages.length : ℤ) : ℚ) ≤ ((r.page.num - 1 : ℤ) : ℚ) := by
        exact_mod_cast Int.le_sub_one_of_lt h2
      push_cast at h3
      rw [hq] at h3
      linarith
  simp only [drawRule]
  rw [if_pos hcond]

theorem applyRedactions_skip {r : Rule} (hint : r.page.den = 1) (n : Nat)
    (hout : r.page < 1 ∨ (n : ℚ) < r.page) :
    ∀ (l1 : List Rule) (doc : PDFDoc), doc.pages.length = n →
      ∀ l2, applyRedactions doc (l1 ++ r :: l2) = applyRedactions doc (l1 ++ l2)
  | [], doc, hlen, l2 => by
    have hskip : drawRule doc r = Except.ok doc :=
      drawRule_out_of_range hint (by rw [hlen]; exact hout)
    simp only [List.nil_append, applyRedactions, hskip]
  | a :: l1, doc, hlen, l2 => by
    simp only [List.cons_append, applyRedactions]
    cases hd : drawRule doc a with
    | error e => rfl
    | ok mid =>
      exact applyRedactions_skip hint n hout l1 mid
        ((drawRule_length hd).trans hlen) l2

end PdfToolkit

namespace PdfToolkit

/-- C10: the GET /api/health endpoint always reports ok = true, whatever the
three binary resolvers returned; the resolver results only feed the separate
binaries object. -/
theorem health_ok_unconditional (qpdf soffice pdftoppm : Option String) :
    (healthHandler qpdf soffice pdftoppm).ok = true
      ∧ (healthHandler qpdf soffice pdftoppm).binaries
          = ⟨qpdf.isSome, soffice.isSome, pdftoppm.isSome⟩ :=
  ⟨rfl, rfl⟩

/-- C3: the cover rectangle drawn on a page is computed exactly as rectX =
x*pageWidth, rectWidth = min (pageWidth - rectX) (width*pageWidth),
rectHeight = min pageHeight (height*pageHeight), rectY = max 0 (pageHeight -
y*pageHeight - rectHeight), drawn at (rectX, rectY) with size (max 1
rectWidth, max 1 rectHeight); on a 612x792 page with rule {page 1, x 0.1,
y 0.2, width 0.6, height 0.1} this gives rectX 61.2, rectY 554.4, drawn width
367.2 and drawn height 79.2. -/
theorem cover_rect_formula (r : Rule) (p : Page) :
    drawCover r p = { p with content := p.content ++ [ContentItem.rect (r.x * p.width)
        (max 0 (p.height - r.y * p.height - min p.height (r.height * p.height)))
        (max 1 (min (p.width - r.x * p.width) (r.width * p.width)))
        (max 1 (min p.height (r.height * p.height))) (rgb 0 0 0)] }
      ∧ drawCover ⟨1, 0.1, 0.2, 0.6, 0.1⟩ ⟨612, 792, []⟩
          = ⟨612, 792, [ContentItem.rect 61.2 554.4 367.2 79.2 (rgb 0 0 0)]⟩ :=
  ⟨rfl, by norm_num [drawCover, rgb]⟩

/-- C4 counterexample: the entry with page 3/2, x 2, y 0, width 5, height 1/2
is kept by the parseRedactions filter although its page is not an integer and
x and width exceed 1, so the claimed keep condition is not equivalent to the
implemented one. -/
theorem parse_filter_counterexample :
    validEntry ⟨some (3/2), some 2, some 0, some 5, some (1/2)⟩ = true
      ∧ specValidEntry ⟨some (3/2), some 2, some 0, some 5, some (1/2)⟩ = false
      ∧ parseRedactions (some [⟨some (3/2), some 2, some 0, some 5, some (1/2)⟩])
          = [⟨3/2, 2, 0, 5, 1/2⟩] := by
  refine ⟨?_, ?_, ?_⟩ <;>
    norm_num [validEntry, specValidEntry, parseRedactions, ruleOf]

/-- C4 amended: a parsed entry is kept for processing iff all five fields are
finite and page is at least 1, x and y are at least 0, and width and height
are above 0; no upper bounds are enforced and page is not required to be an
integer. -/
theorem parse_filter_characterization (e : JEntry) :
    validEntry e = true ↔
      ((∃ p, e.page = some p ∧ 1 ≤ p) ∧ (∃ x, e.x = some x ∧ 0 ≤ x)
        ∧ (∃ y, e.y = some y ∧ 0 ≤ y) ∧ (∃ w, e.width = some w ∧ 0 < w)
        ∧ (∃ h, e.height = some h ∧ 0 < h)) := by
  obtain ⟨p, x, y, w, h⟩ := e
  cases p <;> cases x <;> cases y <;> cases w <;> cases h <;>
    simp [validEntry, and_assoc]

/-- C6: the kept rasterizer output names are ordered ascending by the numeric
value of the page number embedded in each filename; the names are a
permutation of the matching ones, and concretely page 10 sorts after page 9
although it is lexicographically smaller. -/
theorem generated_numeric_order (names : List String) :
    ((generatedOf names).Sorted fun a b => pageNumOf a ≤ pageNumOf b)
      ∧ (generatedOf names).Perm (names.filter matchesPattern)
      ∧ generatedOf ["redacted-page-10.jpg", "redacted-page-9.jpg"]
          = ["redacted-page-9.jpg", "redacted-page-10.jpg"]
      ∧ "redacted-page-10.jpg".data < "redacted-page-9.jpg".data :=
  ⟨List.sorted_insertionSort numLe _, List.perm_insertionSort numLe _, by decide, by decide⟩

/-- C7 counterexample: a request carrying no file, made while the rasterizer
binary is missing, is answered with 501, not 400, because the binary check
runs before the input check. -/
theorem missing_input_counterexample :
    statusOf (redactPdf false false none none none (fun _ => ⟨1, 1⟩)).response = 501
      ∧ statusOf (redactPdf false false none none none (fun _ => ⟨1, 1⟩)).response ≠ 400 :=
  ⟨rfl, by decide⟩

/-- C7 amended: when the rasterizer binary is found, a request with no file or
with zero valid rules after filtering is answered with a 400 error, and no
temporary directory is created and no document is loaded or mutated. -/
theorem missing_input_rejected (filePresent : Bool) (loadResult : Option PDFDoc)
    (raw : Option (List JEntry)) (rasterNames : Option (List String)) (readImg : String → Jpeg)
    (h : filePresent = false ∨ parseRedactions raw = []) :
    redactPdf true filePresent loadResult raw rasterNames readImg
      = ⟨Response.err 400 ("file and redactions are required"), false, false⟩ := by
  rcases h with h | h
  · subst h
    simp [redactPdf]
  · simp [redactPdf, h]

/-- C7 amended witness: a request with a file but an absent redactions field
is answered with 400 and no temporary directory. -/
theorem missing_input_rejected_witness :
    redactPdf true true none none none (fun _ => ⟨1, 1⟩)
      = ⟨Response.err 400 ("file and redactions are required"), false, false⟩ :=
  missing_input_rejected true none none none (fun _ => ⟨1, 1⟩) (Or.inr rfl)

/-- C8: while the rasterizer binary cannot be located, the redact endpoint
responds 501 and never creates a temporary working directory. -/
theorem missing_rasterizer_501 (pdftoppmFound filePresent : Bool) (loadResult : Option PDFDoc)
    (raw : Option (List JEntry)) (rasterNames : Option (List String)) (readImg : String → Jpeg)
    (h : pdftoppmFound = false) :
    statusOf (redactPdf pdftoppmFound filePresent loadResult raw rasterNames readImg).response = 501
      ∧ (redactPdf pdftoppmFound filePresent loadResult raw rasterNames
          readImg).tempCreated = false := by
  subst h
  exact ⟨rfl, rfl⟩

/-- C8 witness: a concrete request with the rasterizer missing gets 501 and no
temporary directory. -/
theorem missing_rasterizer_501_witness :
    statusOf (redactPdf false true none none none (fun _ => ⟨1, 1⟩)).response = 501
      ∧ (redactPdf false true none none none (fun _ => ⟨1, 1⟩)).tempCreated = false :=
  missing_rasterizer_501 false true none none none (fun _ => ⟨1, 1⟩) rfl

end PdfToolkit

namespace PdfToolkit

theorem temp_flags_eq (pdftoppmFound filePresent : Bool) (loadResult : Option PDFDoc)
    (raw : Option (List JEntry)) (rasterNames : Option (List String)) (readImg : String → Jpeg) :
    (redactPdf pdftoppmFound filePresent loadResult raw rasterNames readImg).tempCleaned
      = (redactPdf pdftoppmFound filePresent loadResult raw rasterNames readImg).tempCreated := by
  simp only [redactPdf]
  split
  · rfl
  · split
    · rfl
    · split <;> rfl

/-- C9: on every run of the redact handler in which the temporary working
directory is created, the finally block removes it before the handler
completes, on the success path, on handled error responses and on thrown
exceptions alike. -/
theorem temp_dir_cleanup (pdftoppmFound filePresent : Bool) (loadResult : Option PDFDoc)
    (raw : Option (List JEntry)) (rasterNames : Option (List String)) (readImg : String → Jpeg)
    (h : (redactPdf pdftoppmFound filePresent loadResult raw rasterNames readImg).tempCreated
        = true) :
    (redactPdf pdftoppmFound filePresent loadResult raw rasterNames readImg).tempCleaned
      = true :=
  (temp_flags_eq pdftoppmFound filePresent loadResult raw rasterNames readImg).trans h

/-- C9 witness: a run that reaches the temporary directory and then throws
while loading the document still cleans the directory up. -/
theorem temp_dir_cleanup_witness :
    (redactPdf true true none (some [⟨some 1, some 0, some 0, some (1/2), some (1/2)⟩]) none
        (fun _ => ⟨1, 1⟩)).tempCreated = true
      ∧ (redactPdf true true none (some [⟨some 1, some 0, some 0, some (1/2), some (1/2)⟩]) none
        (fun _ => ⟨1, 1⟩)).tempCleaned = true :=
  ⟨by norm_num [redactPdf, parseRedactions, validEntry, handlerBody],
    temp_dir_cleanup true true none (some [⟨some 1, some 0, some 0, some (1/2), some (1/2)⟩])
      none (fun _ => ⟨1, 1⟩)
      (by norm_num [redactPdf, parseRedactions, validEntry, handlerBody])⟩

/-- C5: a rule with an integral page number outside [1, pageCount] of the
loaded source document is a no-op: processing it returns the document
unchanged without error, and the handler run with that rule present equals
the run with that rule removed. -/
theorem out_of_range_rule_noop (source : PDFDoc) (r : Rule) (l1 l2 : List Rule)
    (raw raw2 : Option (List JEntry)) (rasterNames : Option (List String))
    (readImg : String → Jpeg) (filePresent : Bool)
    (hint : r.page.den = 1)
    (hout : r.page < 1 ∨ (source.pages.length : ℚ) < r.page)
    (hparse : parseRedactions raw = l1 ++ r :: l2)
    (hparse2 : parseRedactions raw2 = l1 ++ l2)
    (hne : l1 ++ l2 ≠ []) :
    drawRule source r = Except.ok source
      ∧ redactPdf true filePresent (some source) raw rasterNames readImg
          = redactPdf true filePresent (some source) raw2 rasterNames readImg := by
  refine ⟨drawRule_out_of_range hint hout, ?_⟩
  have hb : handlerBody (some source) (l1 ++ r :: l2) rasterNames readImg
      = handlerBody (some source) (l1 ++ l2) rasterNames readImg := by
    simp only [handlerBody]
    rw [applyRedactions_skip hint source.pages.length hout l1 source rfl l2]
  have h1 : ((l1 ++ r :: l2).length == 0) = false := by simp
  have h2 : ((l1 ++ l2).length == 0) = false := by
    simpa using hne
  cases filePresent
  · simp [redactPdf]
  · simp only [redactPdf, hparse, hparse2, h1, h2, Bool.not_true, Bool.false_or, hb]

end PdfToolkit

namespace PdfToolkit

/-- A one page source document holding extractable text, for concrete runs. -/
def exPage : Page := ⟨612, 792, [ContentItem.text ("secret")]⟩

/-- A concrete source document. -/
def exSource : PDFDoc := ⟨[exPage]⟩

/-- A concrete valid redaction entry for page 1. -/
def exEntry : JEntry := ⟨some 1, some (1/10), some (2/10), some (6/10), some (1/10)⟩

/-- A concrete rasterizer read giving a 100 by 200 image for any name. -/
def exRead : String → Jpeg := fun _ => ⟨100, 200⟩

/-- The staged document of the concrete run. -/
def exStaged : PDFDoc := ⟨[drawCover (ruleOf exEntry) exPage]⟩

/-- The single page of the output document of the concrete run. -/
def exOutPage : Page := ⟨100, 200, [ContentItem.image ⟨100, 200⟩ 0 0 100 200]⟩

/-- The output document of the concrete run. -/
def exOut : PDFDoc := ⟨[exOutPage]⟩

/-- C2: when the rasterizer produces exactly one image per page of the staged
document, a 200 response of the redact endpoint carries a document with the
same page count as the loaded source document. -/
theorem redact_preserves_page_count (pdftoppmFound filePresent : Bool)
    (source staged out : PDFDoc) (raw : Option (List JEntry)) (names : List String)
    (readImg : String → Jpeg)
    (hstaged : applyRedactions source (parseRedactions raw) = Except.ok staged)
    (hraster : (generatedOf names).length = staged.pages.length)
    (hrun : (redactPdf pdftoppmFound filePresent (some source) raw (some names) readImg).response
        = Response.ok out) :
    out.pages.length = source.pages.length := by
  simp only [redactPdf] at hrun
  split at hrun
  · exact absurd (congrArg statusOf hrun) (show (501 : Nat) ≠ 200 by decide)
  · split at hrun
    · exact absurd (congrArg statusOf hrun) (show (400 : Nat) ≠ 200 by decide)
    · split at hrun
      · rename_i resp heq
        replace hrun : resp = Response.ok out := hrun
        subst hrun
        simp only [handlerBody, hstaged] at heq
        split at heq
        · injection heq with h
          exact absurd (congrArg statusOf h) (show (500 : Nat) ≠ 200 by decide)
        · injection heq with h
          injection h with h2
          subst h2
          simp only [reassemble, List.length_map]
          rw [hraster, applyRedactions_length hstaged]
      · exact absurd (congrArg statusOf hrun) (show (500 : Nat) ≠ 200 by decide)

/-- C2 witness: the concrete one page run with one valid rule and one raster
image gives an output of the same page count. -/
theorem redact_preserves_page_count_witness :
    (redactPdf true true (some exSource) (some [exEntry]) (some ["redacted-page-1.jpg"])
        exRead).response = Response.ok exOut
      ∧ exOut.pages.length = exSource.pages.length :=
  ⟨by norm_num [redactPdf, handlerBody, parseRedactions, validEntry, ruleOf, applyRedactions,
      drawRule, drawCover, modifyPage, generatedOf, reassemble, rgb, exSource, exPage, exEntry,
      exRead, exOut, exOutPage],
    redact_preserves_page_count true true exSource exStaged exOut (some [exEntry])
      ["redacted-page-1.jpg"] exRead
      (by norm_num [applyRedactions, parseRedactions, validEntry, ruleOf, drawRule, modifyPage,
        exSource, exPage, exEntry, exStaged])
      (by norm_num [generatedOf, exStaged])
      (by norm_num [redactPdf, handlerBody, parseRedactions, validEntry, ruleOf, applyRedactions,
        drawRule, drawCover, modifyPage, generatedOf, reassemble, rgb, exSource, exPage, exEntry,
        exRead, exOut, exOutPage])⟩

/-- C1: every page of a 200 response of the redact endpoint consists solely of
one full page JPEG image taken from the rasterizer output of the staged
document, so no text or vector content of the source content streams is
carried over and text extraction over any output page yields the empty
string. -/
theorem redact_output_pages_image_only (pdftoppmFound filePresent : Bool)
    (loadResult : Option PDFDoc) (raw : Option (List JEntry)) (names : List String)
    (readImg : String → Jpeg) (out : PDFDoc)
    (hrun : (redactPdf pdftoppmFound filePresent loadResult raw (some names) readImg).response
        = Response.ok out) :
    ∀ p ∈ out.pages,
      (∃ name ∈ generatedOf names,
          p = ⟨((readImg name).w : ℚ), ((readImg name).h : ℚ),
            [ContentItem.image (readImg name) 0 0 ((readImg name).w : ℚ)
              ((readImg name).h : ℚ)]⟩)
        ∧ pageText p = "" ∧ ∀ c ∈ p.content, isImageItem c = true := by
  simp only [redactPdf] at hrun
  split at hrun
  · exact absurd (congrArg statusOf hrun) (show (501 : Nat) ≠ 200 by decide)
  · split at hrun
    · exact absurd (congrArg statusOf hrun) (show (400 : Nat) ≠ 200 by decide)
    · split at hrun
      · rename_i resp heq
        replace hrun : resp = Response.ok out := hrun
        subst hrun
        simp only [handlerBody] at heq
        split at heq
        · exact Except.noConfusion heq
        · rename_i source
          split at heq
          · exact Except.noConfusion heq
          · split at heq
            · injection heq with h
              exact absurd (congrArg statusOf h) (show (500 : Nat) ≠ 200 by decide)
            · injection heq with h
              injection h with h2
              subst h2
              intro p hp
              simp only [reassemble, List.map_map, List.mem_map, Function.comp] at hp
              obtain ⟨name, hname, rfl⟩ := hp
              refine ⟨⟨name, hname, rfl⟩, rfl, ?_⟩
              intro c hc
              simp only [List.mem_singleton] at hc
              subst hc
              rfl
      · exact absurd (congrArg statusOf hrun) (show (500 : Nat) ≠ 200 by decide)

/-- C1 witness: the page of the concrete successful run holds a single raster
image and no extractable text. -/
theorem redact_output_pages_image_only_witness :
    (∃ name ∈ generatedOf ["redacted-page-1.jpg"],
        exOutPage = ⟨((exRead name).w : ℚ), ((exRead name).h : ℚ),
          [ContentItem.image (exRead name) 0 0 ((exRead name).w : ℚ)
            ((exRead name).h : ℚ)]⟩)
      ∧ pageText exOutPage = "" :=
  ((redact_output_pages_image_only true true (some exSource) (some [exEntry])
      ["redacted-page-1.jpg"] exRead exOut
      (by norm_num [redactPdf, handlerBody, parseRedactions, validEntry, ruleOf, applyRedactions,
        drawRule, drawCover, modifyPage, generatedOf, reassemble, rgb, exSource, exPage, exEntry,
        exRead, exOut, exOutPage])
      exOutPage (by simp [exOut])).imp id fun h => h.1)

end PdfToolkit

namespace PdfToolkit

/-- C5 witness: on a one page document, the valid rule for page 2 draws
nothing and removing it from the request leaves the outcome unchanged. -/
theorem out_of_range_rule_noop_witness :
    drawRule exSource ⟨2, 0, 0, 1/2, 1/2⟩ = Except.ok exSource
      ∧ redactPdf true true (some exSource)
          (some [⟨some 1, some 0, some 0, some (1/2), some (1/2)⟩,
            ⟨some 2, some 0, some 0, some (1/2), some (1/2)⟩]) none exRead
        = redactPdf true true (some exSource)
          (some [⟨some 1, some 0, some 0, some (1/2), some (1/2)⟩]) none exRead :=
  out_of_range_rule_noop exSource ⟨2, 0, 0, 1/2, 1/2⟩ [⟨1, 0, 0, 1/2, 1/2⟩] []
    (some [⟨some 1, some 0, some 0, some (1/2), some (1/2)⟩,
      ⟨some 2, some 0, some 0, some (1/2), some (1/2)⟩])
    (some [⟨some 1, some 0, some 0, some (1/2), some (1/2)⟩]) none exRead true
    (by norm_num)
    (Or.inr (by norm_num [exSource, exPage]))
    (by norm_num [parseRedactions, validEntry, ruleOf])
    (by norm_num [parseRedactions, validEntry, ruleOf])
    (by simp)

end PdfToolkit
